import Mathlib

/-!
Verification development for the ceph kernel OSD client
(src/kernel/osd_client.c).

The C source is shallowly embedded: each modelled C function becomes a
Lean definition carrying the source function's name where possible.
Machine integers are modelled as `Nat` with explicit wrap-around
(`% 2^64`) where the source relies on unsigned overflow.  External
collaborators that the spec declares out of scope (the message
transport, the osd-map decoder, the placement primitives
`ceph_calc_object_layout` / `ceph_calc_pg_primary`, and the file-layout
mapper `ceph_calc_file_object_mapping`) enter the model as oracle
parameters; observable interactions with them (transport sends, monitor
map requests, session creation) are recorded as explicit events.
-/

/-- Modelled from the spec: flag bit constants live in a header outside
src/; the spec (section 6) publishes READ=1 and WRITE=2, the remaining
bits are only required to be distinct powers of two. -/
def CEPH_OSD_FLAG_READ : Nat := 1

/-- Modelled from the spec: WRITE flag bit (spec section 6: WRITE=2). -/
def CEPH_OSD_FLAG_WRITE : Nat := 2

/-- Modelled from the spec: ONDISK (commit/safe) flag bit; exact ABI
value is outside src/, only distinctness from READ/WRITE matters here. -/
def CEPH_OSD_FLAG_ONDISK : Nat := 4

/-- Modelled from the spec: RETRY flag bit set on resent requests. -/
def CEPH_OSD_FLAG_RETRY : Nat := 8

/-- Modelled from the spec: opcode constants (header outside src/);
only their distinctness matters to the modelled control flow. -/
def CEPH_OSD_OP_READ : Nat := 1

/-- Modelled from the spec: WRITE opcode. -/
def CEPH_OSD_OP_WRITE : Nat := 2

/-- Modelled from the spec: MASKTRUNC auxiliary opcode. -/
def CEPH_OSD_OP_MASKTRUNC : Nat := 3

/-- Modelled from the spec: SETTRUNC auxiliary opcode. -/
def CEPH_OSD_OP_SETTRUNC : Nat := 4

/-- Modelled from the spec: STARTSYNC auxiliary opcode. -/
def CEPH_OSD_OP_STARTSYNC : Nat := 5

/-- `flags & bit` test, as the C source writes `flags & CEPH_OSD_FLAG_X`. -/
def hasFlag (flags bit : Nat) : Bool := (flags &&& bit) != 0

/-- 2^64, the modulus of the source's u64 arithmetic. -/
def U64 : Nat := 18446744073709551616

/-- u64 subtraction `a - b` with wrap-around, for operands below 2^64. -/
def u64sub (a b : Nat) : Nat := (a + (U64 - b % U64)) % U64

/-! ## Request build (`ceph_osdc_new_request`, osd_client.c lines 106-216)

`struct ceph_osd_op` fields that the build writes. -/

structure OsdOp where
  op : Nat
  offset : Nat := 0
  length : Nat := 0
  payload_len : Nat := 0
  truncate_seq : Nat := 0
  truncate_size : Nat := 0
deriving DecidableEq

/-- The op array composed by `ceph_osdc_new_request` (lines 123-124 and
169-204).  `objoff`/`objlen`/`adjPlen` are the object extent produced by
the external file-layout mapper in `calc_layout` (`objoff` becomes the
primary op's `offset`, `adjPlen` the possibly shortened `*plen`).
`do_trunc` is computed from the caller's original `*plen` (line 123,
before `calc_layout` may shorten it); the truncate op's size is the u64
expression `truncate_size - (off - prevofs)` of line 199 with `prevofs`
the primary op's offset. -/
def ceph_osdc_new_request_ops (opcode flags : Nat) (off plen : Nat) (doSync : Bool)
    (truncateSeq truncateSize : Nat) (objoff objlen adjPlen : Nat) : List OsdOp :=
  let doTrunc : Bool := (truncateSeq != 0) && decide (truncateSize < (off + plen) % U64)
  let primary : OsdOp :=
    { op := opcode, offset := objoff, length := objlen,
      payload_len := if hasFlag flags CEPH_OSD_FLAG_WRITE then adjPlen else 0 }
  let truncOp : OsdOp :=
    { op := if opcode = CEPH_OSD_OP_READ then CEPH_OSD_OP_MASKTRUNC else CEPH_OSD_OP_SETTRUNC,
      truncate_seq := truncateSeq,
      truncate_size := u64sub truncateSize (u64sub off objoff) }
  let syncOp : OsdOp := { op := CEPH_OSD_OP_STARTSYNC }
  primary :: ((if doTrunc then [truncOp] else []) ++ (if doSync then [syncOp] else []))

/-- `num_op = 1 + do_sync + do_trunc` (line 124). -/
def ceph_osdc_new_request_num_op (doSync doTrunc : Bool) : Nat :=
  1 + (if doSync then 1 else 0) + (if doTrunc then 1 else 0)

/-! ## Front-buffer sizing (`ceph_osdc_new_request`, lines 125, 149-152
and the final overflow assertion at line 214). -/

/-- Number of hex digits `sprintf("%llx", n)` emits (fuel-based digit
count; `hexLen 0 = 1` since `%llx` prints a single `0`). -/
def hexLenAux : Nat → Nat → Nat
  | 0, _ => 0
  | f + 1, n => if n < 16 then 1 else hexLenAux f (n / 16) + 1

/-- Digit count of the `%llx` rendering of `n`. -/
def hexLen (n : Nat) : Nat := hexLenAux (n + 1) n

/-- Length of the oid `sprintf(req->r_oid, "%llx.%08llx", vino.ino, bno)`
written at line 59: hex of the inode, a dot, and the block number
zero-padded to at least 8 hex digits. -/
def oidLen (ino bno : Nat) : Nat := hexLen ino + 1 + max 8 (hexLen bno)

/-- `msg_size` as computed at lines 125 and 149-151: header, the op
array, 40 bytes reserved for the oid, the signed ticket, and one u64 per
snapshot when a snap context is supplied. -/
def osd_req_msg_size (headSize opSize numOp ticketLen : Nat) (snaps : Option Nat) : Nat :=
  headSize + numOp * opSize + 40 + ticketLen +
    (match snaps with | some k => 8 * k | none => 0)

/-- Offset of the write pointer `p` after composing the body (lines
160, 184-190, 208-211): the ops region, then oid bytes, ticket bytes,
and the snapshot ids. -/
def osd_req_front_written (headSize opSize numOp ticketLen : Nat) (snaps : Option Nat)
    (ino bno : Nat) : Nat :=
  headSize + numOp * opSize + oidLen ino bno + ticketLen +
    (match snaps with | some k => 8 * k | none => 0)

/-! ## Map handler (`ceph_osdc_handle_map`, lines 739-838)

The handler is modelled after the fsid check has passed and for
well-formed (decodable) payloads; an incremental map is a pair of its
`epoch` and whether `osdmap_apply_incremental` returns a new object
(`newmap != osdc->osdmap`, line 781); a full map is its `epoch`.
Observable actions are recorded as events. -/

inductive MapEv where
  | appliedInc : Nat → MapEv
  | destroyedOld : Nat → MapEv
  | ignoredInc : Nat → MapEv
  | tookFull : Nat → MapEv
  | skippedFull : Nat → MapEv
deriving DecidableEq

/-- The incremental-map loop (lines 765-791).  State is the current
map's epoch (`none` when `osdc->osdmap` is NULL).  Applying an
incremental with epoch `e` yields a map with epoch `e`; when the result
is a new object the old map is destroyed (event `destroyedOld`).  The
returned Bool is `newmap != NULL` after the loop. -/
def handle_map_incrementals : Option Nat → List (Nat × Bool) → Option Nat × Bool × List MapEv
  | cur, [] => (cur, false, [])
  | cur, (e, isNew) :: rest =>
    match cur with
    | some c =>
      if c + 1 = e then
        let t := handle_map_incrementals (some e) rest
        (t.1, true, (MapEv.appliedInc e :: (if isNew then [MapEv.destroyedOld c] else [])) ++ t.2.2)
      else
        let t := handle_map_incrementals (some c) rest
        (t.1, t.2.1, MapEv.ignoredInc e :: t.2.2)
    | none =>
      let t := handle_map_incrementals none rest
      (t.1, t.2.1, MapEv.ignoredInc e :: t.2.2)

/-- The full-map loop (lines 796-824): every map but the last is
skipped (`nr_maps > 1`); the last is skipped when a current map exists
with `epoch >= e`, otherwise it is decoded and swapped in. -/
def handle_map_fulls : Option Nat → List Nat → Option Nat × Bool × List MapEv
  | cur, [] => (cur, false, [])
  | cur, e :: rest =>
    if rest.isEmpty then
      match cur with
      | some c =>
        if e ≤ c then (cur, false, [MapEv.skippedFull e])
        else (some e, true, [MapEv.tookFull e])
      | none => (some e, true, [MapEv.tookFull e])
    else
      let t := handle_map_fulls cur rest
      (t.1, t.2.1, MapEv.skippedFull e :: t.2.2)

/-- `ceph_osdc_handle_map` after the fsid check: run the incremental
loop; if any incremental produced a map (`if (newmap) goto done`, line
792) the full-map list is skipped entirely, otherwise run the full-map
loop. -/
def ceph_osdc_handle_map (cur : Option Nat) (incs : List (Nat × Bool)) (fulls : List Nat) :
    Option Nat × List MapEv :=
  let ti := handle_map_incrementals cur incs
  if ti.2.1 then (ti.1, ti.2.2)
  else
    let tf := handle_map_fulls ti.1 fulls
    (tf.1, ti.2.2 ++ tf.2.2)

/-- Declarative reading of spec section 4.7 step 3, written as a left
fold: an incremental is applied exactly when its epoch is the current
epoch plus one; applying swaps the epoch and, for a new object,
destroys the old map. -/
def specIncStep : Nat × Bool × List MapEv → Nat × Bool → Nat × Bool × List MapEv
  | (c, applied, acc), (e, isNew) =>
    if c + 1 = e then
      (e, true, acc ++ (MapEv.appliedInc e :: (if isNew then [MapEv.destroyedOld c] else [])))
    else (c, applied, acc ++ [MapEv.ignoredInc e])

/-- Fold of `specIncStep` over the incremental list, starting from the
current epoch with nothing applied. -/
def specIncFold (c : Nat) (incs : List (Nat × Bool)) : Nat × Bool × List MapEv :=
  incs.foldl specIncStep (c, false, [])

/-- Declarative reading of spec section 4.7 step 5: all full maps but
the last are ignored; the last is taken exactly when its epoch strictly
exceeds the current epoch. -/
def specFullEvents (c : Nat) (fulls : List Nat) : List MapEv :=
  match fulls.getLast? with
  | none => []
  | some e =>
    (fulls.dropLast.map MapEv.skippedFull) ++
      (if c < e then [MapEv.tookFull e] else [MapEv.skippedFull e])

/-- Epoch after the full-map phase per the spec: the last full map's
epoch when it strictly exceeds the current epoch, else unchanged. -/
def specFullEpoch (c : Nat) (fulls : List Nat) : Nat :=
  match fulls.getLast? with
  | none => c
  | some e => if c < e then e else c

/-! ## The request index search tree (lines 218-281)

The source keeps requests in a Linux rbtree sorted by `r_tid`.  The
descent loops of `__insert_request`, `__lookup_request` and
`__lookup_request_ge` are the repository's own code and are modelled
structurally; the red-black rebalancing (`rb_insert_color`, `rb_erase`)
is external library code, so the tree is modelled as an arbitrary
binary search tree — exactly the invariant rebalancing preserves.
A node carries a request's `r_tid` and `r_flags`. -/

inductive Rbt where
  | nil : Rbt
  | node : Rbt → Nat → Nat → Rbt → Rbt
deriving DecidableEq

/-- `__insert_request` descent (lines 221-241): walk left on smaller
tid, right on larger; an equal tid is a `BUG()` in the source (it never
happens, tids are fresh) and leaves the tree unchanged here. -/
def insertReq : Rbt → Nat → Nat → Rbt
  | .nil, tid, f => .node .nil tid f .nil
  | .node l k fk r, tid, f =>
    if tid < k then .node (insertReq l tid f) k fk r
    else if k < tid then .node l k fk (insertReq r tid f)
    else .node l k fk r

/-- `__lookup_request_ge` (lines 261-281): on `tid < node` return the
node if it has no left child, else descend left; on `tid > node`
descend right; on equality return the node.  (Note the descent keeps no
candidate when moving left.) -/
def lookupGe : Rbt → Nat → Option (Nat × Nat)
  | .nil, _ => none
  | .node l k fk r, tid =>
    if tid < k then
      match l with
      | .nil => some (k, fk)
      | _ => lookupGe l tid
    else if k < tid then lookupGe r tid
    else some (k, fk)

/-- In-order traversal of the index: (tid, flags) pairs. -/
def inorderPairs : Rbt → List (Nat × Nat)
  | .nil => []
  | .node l k fk r => inorderPairs l ++ (k, fk) :: inorderPairs r

/-- In-order list of tids. -/
def inorderTids (t : Rbt) : List Nat := (inorderPairs t).map (fun p => p.1)

/-- All tids in the tree satisfy `p`. -/
def treeAllTids (p : Nat → Bool) : Rbt → Bool
  | .nil => true
  | .node l k _ r => p k && treeAllTids p l && treeAllTids p r

/-- The binary-search ordering invariant on the index. -/
def isBst : Rbt → Bool
  | .nil => true
  | .node l k _ r =>
    treeAllTids (fun x => decide (x < k)) l && treeAllTids (fun x => decide (k < x)) r &&
      isBst l && isBst r

/-- The tid counter plus the request index, the state touched by
`register_request`'s tid assignment and insertion (lines 355-380). -/
structure OsdcIndex where
  lastTid : Nat
  requests : Rbt
deriving DecidableEq

/-- `register_request` on the index: `req->r_tid = ++osdc->last_tid`
(line 361) followed by `__insert_request` (line 365).  Returns the
assigned tid. -/
def tree_register_request (st : OsdcIndex) (f : Nat) : OsdcIndex × Nat :=
  ({ lastTid := st.lastTid + 1, requests := insertReq st.requests (st.lastTid + 1) f },
   st.lastTid + 1)

/-- Register a sequence of requests (given by their flags) in order,
collecting the assigned tids. -/
def tree_registerAll (st : OsdcIndex) : List Nat → OsdcIndex × List Nat
  | [] => (st, [])
  | f :: fs =>
    let p := tree_register_request st f
    let q := tree_registerAll p.1 fs
    (q.1, p.2 :: q.2)

/-- The scan loop of `ceph_osdc_sync` (lines 990-1008): repeatedly
`__lookup_request_ge(next_tid)`; stop on no result or a tid above the
`last_tid` snapshot; skip non-WRITE requests; otherwise wait on the
request's safe completion (collected in the returned list) and continue
from `tid + 1`.  Fuel bounds the loop (each iteration strictly
increases `next_tid`, so `last + 2` steps always suffice). -/
def sync_loop (t : Rbt) (last : Nat) : Nat → Nat → List Nat
  | 0, _ => []
  | fuel + 1, next =>
    match lookupGe t next with
    | none => []
    | some (tid, f) =>
      if last < tid then []
      else if hasFlag f CEPH_OSD_FLAG_WRITE then tid :: sync_loop t last fuel (tid + 1)
      else sync_loop t last fuel (tid + 1)

/-- `ceph_osdc_sync` (lines 983-1011): snapshot `last_tid`, scan from
tid 0, return the tids whose safe completion is awaited. -/
def ceph_osdc_sync (t : Rbt) (last : Nat) : List Nat :=
  sync_loop t last (last + 2) 0

/-- A valid search-tree state of the index holding write requests with
tids 5, 10 and 12 in the shape root 10, left child 5, right child 12 —
the exact shape standard red-black insertion of 5, 10, 12 produces. -/
def c7_tree : Rbt :=
  .node (.node .nil 5 CEPH_OSD_FLAG_WRITE .nil) 10 CEPH_OSD_FLAG_WRITE
    (.node .nil 12 CEPH_OSD_FLAG_WRITE .nil)

/-! ## Client state: requests, daemon sessions, dispatcher, replies

For the dispatcher and reply-handler claims the request index is used
as the finite map it implements (a list of request records keyed by
tid); the tree-shape claims above cover the search-tree layer.  A
request record keeps the fields these paths read or write; message
refcounts, timers and the page vector are not modelled. -/

structure ReqState where
  tid : Nat
  flags : Nat
  osd : Option Int
  gotReply : Bool := false
  aborted : Bool := false
  resend : Bool := false
  result : Int := 0
  hasCallback : Bool := false
  hasSafeCallback : Bool := false
deriving DecidableEq

/-- `struct ceph_osd_client` state touched by the modelled paths: the
tid counter, the request index, the daemon registry (`osds`, a map from
osd ordinal to the session's routed request list `o_requests`), and the
live request count. -/
structure ClientState where
  lastTid : Nat := 0
  reqs : List ReqState := []
  osds : List (Int × List Nat) := []
  numRequests : Nat := 0
deriving DecidableEq

/-- A decoded `OSD_OPREPLY` front: tid, flags, result and the data
length of the message (`msg->hdr.data_len`). -/
structure ReplyMsg where
  tid : Nat
  flags : Nat
  result : Int
  dataLen : Int
deriving DecidableEq

/-- Observable events of the reply handler. -/
inductive REv where
  | callback : Nat → REv
  | completed : Nat → REv
  | safeCallback : Nat → REv
  | safeCompleted : Nat → REv
deriving DecidableEq

/-- Observable events of the dispatcher: a monitor osd-map request, a
transport send (`ceph_con_send`) of a request to an osd, and creation
of a daemon session for an ordinal. -/
inductive SendEv where
  | monRequestMap : SendEv
  | conSend : Nat → Int → SendEv
  | sessionCreated : Int → SendEv
deriving DecidableEq

/-- `__lookup_request` as a map lookup: the registered request with the
given tid, if any. -/
def findReq (st : ClientState) (tid : Nat) : Option ReqState :=
  st.reqs.find? (fun r => r.tid == tid)

/-- Write back a mutated request record (C mutates through the shared
pointer; the functional model replaces the indexed record). -/
def updateReq (st : ClientState) (req : ReqState) : ClientState :=
  { st with reqs := st.reqs.map (fun r => if r.tid == req.tid then req else r) }

/-- `req->r_resend = true` on the nofail failure path (line 920). -/
def markResend (st : ClientState) (tid : Nat) : ClientState :=
  { st with reqs := st.reqs.map (fun r => if r.tid == tid then { r with resend := true } else r) }

/-- The session request list of ordinal `o` (`__lookup_osd` plus its
`o_requests`), if a session exists. -/
def sessionList (osds : List (Int × List Nat)) (o : Int) : Option (List Nat) :=
  (osds.find? (fun s => s.1 == o)).map (fun s => s.2)

/-- `list_del_init(&req->r_osd_item)` followed by
`if (list_empty(&req->r_osd->o_requests)) destroy_osd(...)`: remove the
tid from session `o`'s request list, destroying the session when the
list becomes empty.  (Session ordinals are unique: `__insert_osd`
asserts on collision.) -/
def removeSessionTid : List (Int × List Nat) → Int → Nat → List (Int × List Nat)
  | [], _, _ => []
  | s :: rest, o, tid =>
    if s.1 == o then
      let l := s.2.filter (fun t => !(t == tid))
      if l.isEmpty then rest else (s.1, l) :: rest
    else s :: removeSessionTid rest o tid

/-- `list_add(&req->r_osd_item, &req->r_osd->o_requests)` on an
existing session: prepend the tid to session `o`'s list. -/
def addSessionTid : List (Int × List Nat) → Int → Nat → List (Int × List Nat)
  | [], _, _ => []
  | s :: rest, o, tid =>
    if s.1 == o then (s.1, tid :: s.2) :: rest else s :: addSessionTid rest o tid

/-- `__unregister_request` (lines 385-415): erase from the index,
decrement the live count, drop session-list membership and destroy the
session if it empties.  The source dereferences `req->r_osd->o_requests`
unconditionally (line 393): when the request is unrouted
(`r_osd == NULL`) that is a NULL dereference, modelled as `none`.
The timeout-anchor rescheduling (lines 399-414) only affects timers and
is not modelled. -/
def unregister_request (st : ClientState) (tid : Nat) : Option ClientState :=
  match findReq st tid with
  | none => some st
  | some req =>
    match req.osd with
    | none => none
    | some o =>
      some { st with
        reqs := st.reqs.filter (fun r => !(r.tid == tid)),
        numRequests := st.numRequests - 1,
        osds := removeSessionTid st.osds o tid }

/-- `map_osds` (lines 426-466).  `o` is the primary ordinal computed by
the external placement engine (`ceph_calc_pg_primary`; −1 when the pg
has no up member); `allocOk` is whether the session kmalloc succeeds;
the object-layout calculation is assumed to succeed.  Returns the new
state, the C return value (0 unchanged, 1 changed, −12 for ENOMEM) and
events.  Note the source has no `o >= 0` guard: it looks up — and, if
absent, creates — a session for whatever ordinal the placement engine
returned, including −1. -/
def map_osds (st : ClientState) (tid : Nat) (o : Int) (allocOk : Bool) :
    ClientState × Int × List SendEv :=
  match findReq st tid with
  | none => (st, 0, [])
  | some req =>
    if req.osd == some o then (st, 0, [])
    else
      let osds1 :=
        match req.osd with
        | some old => removeSessionTid st.osds old tid
        | none => st.osds
      let stA := updateReq st { req with osd := none }
      let st1 := { stA with osds := osds1 }
      match sessionList st1.osds o with
      | some _ =>
        let st2 := { st1 with osds := addSessionTid st1.osds o tid }
        (updateReq st2 { req with osd := some o }, 1, [])
      | none =>
        if allocOk then
          let st2 := { st1 with osds := st1.osds ++ [(o, [tid])] }
          (updateReq st2 { req with osd := some o }, 1, [SendEv.sessionCreated o])
        else (st1, -12, [])

/-- `send_request` (lines 471-500): run `map_osds`; propagate ENOMEM;
if the request ends up unrouted, ask the monitor for a newer map and
return 0; otherwise stamp the header and hand the message to the
transport (`ceph_con_send`). -/
def send_request (st : ClientState) (tid : Nat) (o : Int) (allocOk : Bool) :
    ClientState × Int × List SendEv :=
  let t := map_osds st tid o allocOk
  if t.2.1 = -12 then (t.1, -12, t.2.2)
  else
    match findReq t.1 tid with
    | some req1 =>
      match req1.osd with
      | none => (t.1, 0, t.2.2 ++ [SendEv.monRequestMap])
      | some osd => (t.1, 0, t.2.2 ++ [SendEv.conSend tid osd])
    | none => (t.1, 0, t.2.2)

/-- `register_request` on the client state (lines 355-380): assign
`++last_tid`, insert into the index, bump the live count.  (The index
reference and timeout arming are not modelled.) -/
def register_request (st : ClientState) (req : ReqState) : ClientState × Nat :=
  let tid := st.lastTid + 1
  ({ st with lastTid := tid, reqs := st.reqs ++ [{ req with tid := tid }],
             numRequests := st.numRequests + 1 }, tid)

/-- `ceph_osdc_start_request` (lines 902-929): register, send; on send
failure either mark `r_resend` (nofail) or `__unregister_request`.
`none` models the NULL dereference inside `__unregister_request` when
the failed request never acquired a session. -/
def ceph_osdc_start_request (st : ClientState) (req : ReqState) (o : Int)
    (allocOk : Bool) (nofail : Bool) : Option (ClientState × Int × List SendEv) :=
  let p := register_request st req
  let t := send_request p.1 p.2 o allocOk
  if t.2.1 ≠ 0 then
    if nofail then some (markResend t.1 p.2, 0, t.2.2)
    else
      match unregister_request t.1 p.2 with
      | none => none
      | some st3 => some (st3, t.2.1, t.2.2)
  else some (t.1, t.2.1, t.2.2)

/-- Lines 619-632: on the first response record the result (`data_len`
when the daemon reported 0), copy `reassert_version` (not modelled) and
set `r_got_reply`; otherwise leave the request unchanged. -/
def replyReqUpdate (req : ReqState) (m : ReplyMsg) : ReqState :=
  if !req.gotReply then
    { req with result := if m.result = 0 then m.dataLen else m.result, gotReply := true }
  else req

/-- `ceph_osdc_handle_reply` (lines 577-666) for well-formed fronts:
look up the tid (unknown tids are dropped); aborted requests exit at
`done` with no side effects (line 615); a second non-ONDISK reply is a
duplicate ack and also exits at `done` (line 633); otherwise record the
first response, unregister when ONDISK is set or the reply is not a
WRITE (lines 641-643), fire the callback or completion, and on ONDISK
additionally the safe callback and safe completion.  `none` models the
NULL dereference inside `__unregister_request` for an unrouted request;
dropping the pinned `r_reply` reference (lines 605-613) is refcount
bookkeeping and is not modelled. -/
def ceph_osdc_handle_reply (st : ClientState) (m : ReplyMsg) : Option (ClientState × List REv) :=
  match findReq st m.tid with
  | none => some (st, [])
  | some req =>
    if req.aborted then some (st, [])
    else if req.gotReply && !(hasFlag m.flags CEPH_OSD_FLAG_ONDISK) then some (st, [])
    else
      let req1 := replyReqUpdate req m
      let st1 := updateReq st req1
      match (if hasFlag m.flags CEPH_OSD_FLAG_ONDISK || !(hasFlag m.flags CEPH_OSD_FLAG_WRITE)
             then unregister_request st1 m.tid else some st1) with
      | none => none
      | some st2 =>
        some (st2,
          (if req1.hasCallback then [REv.callback m.tid] else [REv.completed m.tid]) ++
          (if hasFlag m.flags CEPH_OSD_FLAG_ONDISK then
            (if req1.hasSafeCallback then [REv.safeCallback m.tid] else []) ++
              [REv.safeCompleted m.tid]
           else []))

/-- The post-state of the reply handler (the state component, with the
input state as the don't-care value on the crash path). -/
def replyOutState (st : ClientState) (m : ReplyMsg) : ClientState :=
  ((ceph_osdc_handle_reply st m).getD (st, [])).1

/-- The `kick:` tail of `kick_requests` (lines 707-719, from the
disabled `#if 0` body whose contract spec section 9 keeps): take a
reference, dup the message, and only if the request is not aborted set
the RETRY flag and call `send_request`, marking `r_resend` on failure. -/
def kick_send (st : ClientState) (tid : Nat) (o : Int) (allocOk : Bool) :
    ClientState × List SendEv × Bool :=
  match findReq st tid with
  | none => (st, [], false)
  | some req =>
    if req.aborted then (st, [], false)
    else
      let st1 := updateReq st { req with flags := req.flags ||| CEPH_OSD_FLAG_RETRY }
      let t := send_request st1 tid o allocOk
      let st2 := if t.2.1 ≠ 0 then markResend t.1 tid else t.1
      (st2, t.2.2, false)

/-- One request's step of the `kick_requests` walk (lines 688-721):
kick immediately on `r_resend` or an address match; otherwise call
`map_osds` and skip unchanged requests; requests mapping to no valid
osd count toward `needmap` (the returned Bool); otherwise kick.
`addrMatch` and `lastOsd` stand for the external address comparison and
the `r_last_osd` field. -/
def kick_one (st : ClientState) (tid : Nat) (addrMatch : Bool) (lastOsd o : Int)
    (allocOk : Bool) : ClientState × List SendEv × Bool :=
  match findReq st tid with
  | none => (st, [], false)
  | some req =>
    if req.resend || addrMatch then kick_send st tid o allocOk
    else
      let t := map_osds st tid o allocOk
      if t.2.1 = 0 then (t.1, t.2.2, false)
      else if lastOsd < 0 then (t.1, t.2.2, true)
      else
        let k := kick_send t.1 tid o allocOk
        (k.1, t.2.2 ++ k.2.1, k.2.2)

/-- Transport-send events. -/
def isConSend : SendEv → Bool
  | .conSend _ _ => true
  | _ => false

/-! ## Theorems -/

theorem hexLenAux_le : ∀ f n k : Nat, 1 ≤ k → n < 16 ^ k → hexLenAux f n ≤ k := by
  intro f
  induction f with
  | zero => intro n k _ _; simp [hexLenAux]
  | succ f ih =>
    intro n k hk hn
    by_cases h16 : n < 16
    · simpa [hexLenAux, h16] using hk
    · simp only [hexLenAux, h16, if_false]
      have hk2 : 2 ≤ k := by
        rcases Nat.lt_or_ge k 2 with h | h
        · have hk1 : k = 1 := by omega
          subst hk1
          simp at hn
          omega
        · exact h
      have hpow : 16 ^ (k - 1) * 16 = 16 ^ k := by
        rw [← pow_succ]
        congr 1
        omega
      have hdiv : n / 16 < 16 ^ (k - 1) := by
        rw [Nat.div_lt_iff_lt_mul (by norm_num : 0 < 16)]
        omega
      have := ih (n / 16) (k - 1) (by omega) hdiv
      omega

theorem hexLen_le_16 {n : Nat} (h : n < 2 ^ 64) : hexLen n ≤ 16 := by
  have h16 : n < 16 ^ 16 := by
    have : (16 : Nat) ^ 16 = 2 ^ 64 := by norm_num
    omega
  exact hexLenAux_le (n + 1) n 16 (by norm_num) h16

/-- C9: for every successful request build the outbound front is sized
exactly at build time (header, the op array, 40 bytes reserved for the
`"%llx.%08llx"` oid, the ticket, one u64 per snapshot), and the write
pointer after composing the body never exceeds the allocated front
buffer — the oid text fits in its 40 reserved bytes for any 64-bit
inode and block numbers, so the end-of-build `BUG_ON` at line 214 never
fires. -/
theorem osd_req_front_never_overflows (headSize opSize numOp ticketLen : Nat)
    (snaps : Option Nat) (ino bno : Nat) (hino : ino < 2 ^ 64) (hbno : bno < 2 ^ 64) :
    oidLen ino bno ≤ 40 ∧
    osd_req_front_written headSize opSize numOp ticketLen snaps ino bno ≤
      osd_req_msg_size headSize opSize numOp ticketLen snaps := by
  have h1 : hexLen ino ≤ 16 := hexLen_le_16 hino
  have h2 : hexLen bno ≤ 16 := hexLen_le_16 hbno
  have hoid : oidLen ino bno ≤ 40 := by
    unfold oidLen
    have : max 8 (hexLen bno) ≤ 16 := max_le (by norm_num) h2
    omega
  refine ⟨hoid, ?_⟩
  unfold osd_req_front_written osd_req_msg_size
  cases snaps <;> simp <;> omega

/-- Witness for the overflow theorem at a concrete build. -/
theorem osd_req_front_never_overflows_witness :
    oidLen 255 0 ≤ 40 ∧
    osd_req_front_written 100 42 3 17 (some 2) 255 0 ≤ osd_req_msg_size 100 42 3 17 (some 2) :=
  osd_req_front_never_overflows 100 42 3 17 (some 2) 255 0 (by norm_num) (by norm_num)

theorem u64sub_of_le {a b : Nat} (hb : b ≤ a) (ha : a < U64) : u64sub a b = a - b := by
  unfold u64sub U64 at *
  omega

/-- C2: when `truncate_seq` is nonzero and `off + *plen` reaches past
`truncate_size`, the build appends exactly one auxiliary truncate op —
MASKTRUNC for a read primary, SETTRUNC otherwise — carrying the given
`truncate_seq` and `truncate_size` biased by `off - objoff` (the
primary op's object offset), and `num_op` accounts for it. -/
theorem new_request_appends_truncate_op (opcode flags off plen : Nat) (doSync : Bool)
    (tseq tsize objoff objlen adjPlen : Nat)
    (hseq : tseq ≠ 0) (hpast : tsize < off + plen) (hnw : off + plen < U64)
    (hoff : objoff ≤ off) (hbias : off - objoff ≤ tsize) (hts : tsize < U64) :
    ceph_osdc_new_request_ops opcode flags off plen doSync tseq tsize objoff objlen adjPlen =
      ({ op := opcode, offset := objoff, length := objlen,
         payload_len := if hasFlag flags CEPH_OSD_FLAG_WRITE then adjPlen else 0 } : OsdOp) ::
      ({ op := if opcode = CEPH_OSD_OP_READ then CEPH_OSD_OP_MASKTRUNC else CEPH_OSD_OP_SETTRUNC,
         truncate_seq := tseq, truncate_size := tsize - (off - objoff) } : OsdOp) ::
      (if doSync then [({ op := CEPH_OSD_OP_STARTSYNC } : OsdOp)] else [])
    ∧ (ceph_osdc_new_request_ops opcode flags off plen doSync tseq tsize objoff objlen
        adjPlen).length = ceph_osdc_new_request_num_op doSync true := by
  have hofu : off < U64 := by
    unfold U64 at *
    omega
  have hmod : (off + plen) % U64 = off + plen := Nat.mod_eq_of_lt hnw
  have hdt : ((tseq != 0) && decide (tsize < (off + plen) % U64)) = true := by
    rw [hmod]
    simp [hseq, hpast]
  have hsub1 : u64sub off objoff = off - objoff := u64sub_of_le hoff hofu
  have hsub2 : u64sub tsize (off - objoff) = tsize - (off - objoff) :=
    u64sub_of_le hbias hts
  have hmain :
      ceph_osdc_new_request_ops opcode flags off plen doSync tseq tsize objoff objlen adjPlen =
      ({ op := opcode, offset := objoff, length := objlen,
         payload_len := if hasFlag flags CEPH_OSD_FLAG_WRITE then adjPlen else 0 } : OsdOp) ::
      ({ op := if opcode = CEPH_OSD_OP_READ then CEPH_OSD_OP_MASKTRUNC else CEPH_OSD_OP_SETTRUNC,
         truncate_seq := tseq, truncate_size := tsize - (off - objoff) } : OsdOp) ::
      (if doSync then [({ op := CEPH_OSD_OP_STARTSYNC } : OsdOp)] else []) := by
    unfold ceph_osdc_new_request_ops
    rw [hdt, hsub1, hsub2]
    simp
  refine ⟨hmain, ?_⟩
  rw [hmain]
  cases doSync <;> simp [ceph_osdc_new_request_num_op]

/-- Witness: the spec's concrete scenario — `truncate_seq = 7`,
`truncate_size = 1 MiB`, a write at `off = 2 MiB`, `len = 4 KiB` —
yields primary WRITE then SETTRUNC with `truncate_seq = 7` and
`truncate_size = 1 MiB`. -/
theorem new_request_appends_truncate_op_witness :
    ceph_osdc_new_request_ops CEPH_OSD_OP_WRITE 6 2097152 4096 false 7 1048576 2097152 4096
      4096 =
    [{ op := CEPH_OSD_OP_WRITE, offset := 2097152, length := 4096, payload_len := 4096 },
     { op := CEPH_OSD_OP_SETTRUNC, truncate_seq := 7, truncate_size := 1048576 }] := by
  have h := new_request_appends_truncate_op CEPH_OSD_OP_WRITE 6 2097152 4096 false 7 1048576
    2097152 4096 4096 (by decide) (by decide) (by decide) (by decide) (by decide) (by decide)
  rw [h.1]
  decide

/-- A freshly registered, unrouted READ request with tid 1. -/
def c3_req : ReqState := { tid := 1, flags := CEPH_OSD_FLAG_READ, osd := none }

/-- Client state holding only `c3_req`, with an empty daemon registry. -/
def c3_state : ClientState := { lastTid := 1, reqs := [c3_req], osds := [], numRequests := 1 }

/-- C3: evaluation at the failing input.  When the placement engine
reports no primary (ordinal −1) for a registered, unrouted request,
`send_request` does NOT leave the request unrouted and ask the monitor
for a newer map: `map_osds` (which has no `o >= 0` guard) creates a
daemon session for ordinal −1, routes the request to it, and
`send_request` hands the message to the transport — returning 0 with a
`conSend` event and no `monRequestMap` event. -/
theorem send_request_no_primary_creates_session_and_sends :
    (send_request c3_state 1 (-1) true).2.1 = 0
    ∧ (send_request c3_state 1 (-1) true).2.2 =
        [SendEv.sessionCreated (-1), SendEv.conSend 1 (-1)]
    ∧ findReq (send_request c3_state 1 (-1) true).1 1 = some { c3_req with osd := some (-1) }
    ∧ sessionList (send_request c3_state 1 (-1) true).1.osds (-1) = some [1] := by
  decide

/-- C7: evaluation at the failing input.  `c7_tree` is a valid search
tree (the shape red-black insertion of 5, 10, 12 produces) holding the
write requests 5, 10, 12; `__lookup_request_ge` forgets the "greater
ancestor" candidate when its descent ends at an empty right child, so
`lookupGe c7_tree 6` is `none` although tids 10 and 12 are ≥ 6; hence
`ceph_osdc_sync` with `last_tid = 12` waits only on tid 5 and returns
without waiting on the registered writes 10 and 12. -/
theorem sync_skips_registered_writes :
    isBst c7_tree = true
    ∧ inorderPairs c7_tree =
        [(5, CEPH_OSD_FLAG_WRITE), (10, CEPH_OSD_FLAG_WRITE), (12, CEPH_OSD_FLAG_WRITE)]
    ∧ hasFlag CEPH_OSD_FLAG_WRITE CEPH_OSD_FLAG_WRITE = true
    ∧ lookupGe c7_tree 6 = none
    ∧ ceph_osdc_sync c7_tree 12 = [5] := by
  decide

/-- A fresh write request about to be started on an empty client. -/
def c10_req : ReqState := { tid := 0, flags := 6, osd := none }

/-- An empty client state. -/
def c10_state : ClientState := {}

/-- C10: evaluation at the failing input.  Starting a request whose
target daemon session does not exist while the session allocation fails
makes `map_osds` return ENOMEM with `r_osd` still NULL; `send_request`
propagates the error, and `ceph_osdc_start_request` (nofail = false)
then calls `__unregister_request`, which dereferences the NULL
`req->r_osd` at line 393 — modelled as the `none` outcome. -/
theorem start_request_failure_unregisters_null_osd :
    ceph_osdc_start_request c10_state c10_req 3 false false = none
    ∧ (send_request (register_request c10_state c10_req).1
        (register_request c10_state c10_req).2 3 false).2.1 = -12
    ∧ findReq (send_request (register_request c10_state c10_req).1
        (register_request c10_state c10_req).2 3 false).1 1 =
        some { tid := 1, flags := 6, osd := none } := by
  decide

/-- Whether the spec-side full-map phase takes the last full map. -/
def specFullTaken (c : Nat) (fulls : List Nat) : Bool :=
  match fulls.getLast? with
  | none => false
  | some e => decide (c < e)

theorem specIncFold_go (l : List (Nat × Bool)) : ∀ c b acc,
    l.foldl specIncStep (c, b, acc) =
      ((l.foldl specIncStep (c, false, ([] : List MapEv))).1,
       b || (l.foldl specIncStep (c, false, ([] : List MapEv))).2.1,
       acc ++ (l.foldl specIncStep (c, false, ([] : List MapEv))).2.2) := by
  induction l with
  | nil => intro c b acc; simp
  | cons p rest ih =>
    intro c b acc
    obtain ⟨e, isNew⟩ := p
    by_cases h : c + 1 = e
    · simp only [List.foldl_cons, specIncStep, if_pos h, List.nil_append]
      rw [ih e true (acc ++ (MapEv.appliedInc e ::
            (if isNew then [MapEv.destroyedOld c] else []))),
          ih e true (MapEv.appliedInc e :: (if isNew then [MapEv.destroyedOld c] else []))]
      simp [List.append_assoc]
    · simp only [List.foldl_cons, specIncStep, if_neg h, List.nil_append]
      rw [ih c b (acc ++ [MapEv.ignoredInc e]), ih c false [MapEv.ignoredInc e]]
      simp [List.append_assoc]

theorem handle_map_incrementals_spec : ∀ (incs : List (Nat × Bool)) (c : Nat),
    handle_map_incrementals (some c) incs =
      (some (specIncFold c incs).1, (specIncFold c incs).2.1, (specIncFold c incs).2.2) := by
  intro incs
  induction incs with
  | nil => intro c; simp [handle_map_incrementals, specIncFold]
  | cons p rest ih =>
    intro c
    obtain ⟨e, isNew⟩ := p
    by_cases h : c + 1 = e
    · simp only [handle_map_incrementals, if_pos h, ih]
      unfold specIncFold
      simp only [List.foldl_cons, specIncStep, if_pos h, List.nil_append]
      rw [specIncFold_go rest e true
            (MapEv.appliedInc e :: (if isNew then [MapEv.destroyedOld c] else []))]
      simp [specIncFold]
    · simp only [handle_map_incrementals, if_neg h, ih]
      unfold specIncFold
      simp only [List.foldl_cons, specIncStep, if_neg h, List.nil_append]
      rw [specIncFold_go rest c false [MapEv.ignoredInc e]]
      simp [specIncFold]

theorem specIncFold_not_applied : ∀ (l : List (Nat × Bool)) (c : Nat),
    (specIncFold c l).2.1 = false → (specIncFold c l).1 = c := by
  intro l
  induction l with
  | nil => intro c _; simp [specIncFold]
  | cons p rest ih =>
    intro c hb
    obtain ⟨e, isNew⟩ := p
    by_cases h : c + 1 = e
    · exfalso
      unfold specIncFold at hb
      simp only [List.foldl_cons, specIncStep, if_pos h, List.nil_append] at hb
      rw [specIncFold_go rest e true
            (MapEv.appliedInc e :: (if isNew then [MapEv.destroyedOld c] else []))] at hb
      simp at hb
    · unfold specIncFold at hb ⊢
      simp only [List.foldl_cons, specIncStep, if_neg h, List.nil_append] at hb ⊢
      rw [specIncFold_go rest c false [MapEv.ignoredInc e]] at hb ⊢
      simp at hb ⊢
      exact ih c hb

theorem handle_map_fulls_spec : ∀ (fulls : List Nat) (c : Nat),
    handle_map_fulls (some c) fulls =
      (some (specFullEpoch c fulls), specFullTaken c fulls, specFullEvents c fulls) := by
  intro fulls
  induction fulls with
  | nil => intro c; simp [handle_map_fulls, specFullEpoch, specFullTaken, specFullEvents]
  | cons e rest ih =>
    intro c
    cases rest with
    | nil =>
      by_cases h : e ≤ c
      · simp [handle_map_fulls, specFullEpoch, specFullTaken, specFullEvents, h,
          Nat.not_lt.mpr h]
      · have h2 : c < e := Nat.not_le.mp h
        simp [handle_map_fulls, specFullEpoch, specFullTaken, specFullEvents, h, h2]
    | cons f fs =>
      cases hgl : (f :: fs).getLast? with
      | none => simp at hgl
      | some g =>
        have hstep : handle_map_fulls (some c) (e :: f :: fs) =
            ((handle_map_fulls (some c) (f :: fs)).1,
             (handle_map_fulls (some c) (f :: fs)).2.1,
             MapEv.skippedFull e :: (handle_map_fulls (some c) (f :: fs)).2.2) := rfl
        rw [hstep, ih c]
        unfold specFullEpoch specFullTaken specFullEvents
        rw [List.getLast?_cons_cons, hgl]
        simp [hgl, List.dropLast_cons₂]

/-- C1: for every osd-map message that passes the fsid check, the map
handler refines the spec's reading — each incremental is applied
exactly when its epoch equals the current map's epoch plus one
(`specIncStep`, with the old map destroyed when the result is a new
object); if any incremental was applied the full-map list is skipped
entirely; otherwise all full maps but the last are skipped and the last
is decoded and swapped in exactly when its epoch strictly exceeds the
current epoch (`specFullEvents` / `specFullEpoch`). -/
theorem handle_map_applies_incrementals_then_last_full (c : Nat) (incs : List (Nat × Bool))
    (fulls : List Nat) :
    ceph_osdc_handle_map (some c) incs fulls =
      (some (if (specIncFold c incs).2.1 then (specIncFold c incs).1
             else specFullEpoch c fulls),
       (specIncFold c incs).2.2 ++
         (if (specIncFold c incs).2.1 then [] else specFullEvents c fulls)) := by
  unfold ceph_osdc_handle_map
  rw [handle_map_incrementals_spec]
  cases h : (specIncFold c incs).2.1 with
  | true => simp [h]
  | false =>
    have hc := specIncFold_not_applied incs c h
    rw [hc]
    simp only [Bool.false_eq_true, if_false, handle_map_fulls_spec]

theorem tree_registerAll_range (fs : List Nat) : ∀ st : OsdcIndex,
    (tree_registerAll st fs).2 = List.range' (st.lastTid + 1) fs.length := by
  induction fs with
  | nil => intro st; simp [tree_registerAll]
  | cons f rest ih =>
    intro st
    simp [tree_registerAll, tree_register_request, ih, List.range'_succ]

theorem treeAll_mem {p : Nat → Bool} : ∀ {t : Rbt}, treeAllTids p t = true →
    ∀ {x : Nat}, x ∈ inorderTids t → p x = true := by
  intro t
  induction t with
  | nil => intro _ x hx; simp [inorderTids, inorderPairs] at hx
  | node l k fk r ihl ihr =>
    intro h x hx
    simp only [treeAllTids, Bool.and_eq_true] at h
    simp only [inorderTids, inorderPairs, List.map_append, List.map_cons, List.mem_append,
      List.mem_cons] at hx
    rcases hx with hx | hx | hx
    · exact ihl h.1.2 (by simpa [inorderTids] using hx)
    · subst hx; exact h.1.1
    · exact ihr h.2 (by simpa [inorderTids] using hx)

theorem pairwise_inorder : ∀ {t : Rbt}, isBst t = true →
    List.Pairwise (· < ·) (inorderTids t) := by
  intro t
  induction t with
  | nil => intro _; simp [inorderTids, inorderPairs]
  | node l k fk r ihl ihr =>
    intro h
    simp only [isBst, Bool.and_eq_true] at h
    obtain ⟨⟨⟨hal, har⟩, hbl⟩, hbr⟩ := h
    simp only [inorderTids, inorderPairs, List.map_append, List.map_cons]
    rw [List.pairwise_append]
    refine ⟨ihl hbl, ?_, ?_⟩
    · rw [List.pairwise_cons]
      refine ⟨?_, ihr hbr⟩
      intro y hy
      have := treeAll_mem har (x := y) (by simpa [inorderTids] using hy)
      simpa using this
    · intro x hx y hy
      have hxk : x < k := by
        have := treeAll_mem hal (x := x) (by simpa [inorderTids] using hx)
        simpa using this
      simp only [List.mem_cons] at hy
      rcases hy with rfl | hy
      · exact hxk
      · have hky : k < y := by
          have := treeAll_mem har (x := y) (by simpa [inorderTids] using hy)
          simpa using this
        exact lt_trans hxk hky

theorem treeAll_insert {p : Nat → Bool} : ∀ {t : Rbt} {tid f : Nat},
    treeAllTids p t = true → p tid = true → treeAllTids p (insertReq t tid f) = true := by
  intro t
  induction t with
  | nil => intro tid f _ hp; simp [insertReq, treeAllTids, hp]
  | node l k fk r ihl ihr =>
    intro tid f h hp
    simp only [treeAllTids, Bool.and_eq_true] at h
    obtain ⟨⟨hk, hl⟩, hr⟩ := h
    by_cases h1 : tid < k
    · simp [insertReq, h1, treeAllTids, hk, hr, ihl hl hp]
    · by_cases h2 : k < tid
      · simp [insertReq, h1, h2, treeAllTids, hk, hl, ihr hr hp]
      · simp [insertReq, h1, h2, treeAllTids, hk, hl, hr]

theorem isBst_insert : ∀ {t : Rbt} {tid f : Nat},
    isBst t = true → isBst (insertReq t tid f) = true := by
  intro t
  induction t with
  | nil => intro tid f _; simp [insertReq, isBst, treeAllTids]
  | node l k fk r ihl ihr =>
    intro tid f h
    simp only [isBst, Bool.and_eq_true] at h
    obtain ⟨⟨⟨hal, har⟩, hbl⟩, hbr⟩ := h
    by_cases h1 : tid < k
    · have hins : treeAllTids (fun x => decide (x < k)) (insertReq l tid f) = true :=
        treeAll_insert hal (by simpa using h1)
      simp [insertReq, h1, isBst, hins, har, ihl hbl, hbr]
    · by_cases h2 : k < tid
      · have hins : treeAllTids (fun x => decide (k < x)) (insertReq r tid f) = true :=
          treeAll_insert har (by simpa using h2)
        simp [insertReq, h1, h2, isBst, hal, hins, hbl, ihr hbr]
      · simp [insertReq, h1, h2, isBst, hal, har, hbl, hbr]

theorem lookupGe_ge : ∀ (t : Rbt) (q : Nat) (p : Nat × Nat), lookupGe t q = some p → q ≤ p.1 := by
  intro t
  induction t with
  | nil => intro q p h; simp [lookupGe] at h
  | node l k fk r ihl ihr =>
    intro q p h
    by_cases h1 : q < k
    · cases l with
      | nil =>
        simp only [lookupGe, if_pos h1] at h
        cases h
        exact le_of_lt h1
      | node a b c d =>
        simp only [lookupGe, if_pos h1] at h
        exact ihl q p h
    · by_cases h2 : k < q
      · simp only [lookupGe, if_neg h1, if_pos h2] at h
        exact ihr q p h
      · simp only [lookupGe, if_neg h1, if_neg h2] at h
        cases h
        omega

/-- C6: transaction ids are strictly increasing in allocation order
(`register_request` assigns `++last_tid`), and the request index is
ordered by tid — insertion preserves the search ordering, in-order
traversal lists strictly increasing tids, and any hit of the
lowest-key-≥ lookup is at or above the queried tid (so successive
`lowest_ge` scans see strictly increasing tids). -/
theorem tids_strictly_increasing_index_ordered :
    (∀ (st : OsdcIndex) (fs : List Nat), List.Pairwise (· < ·) (tree_registerAll st fs).2)
    ∧ (∀ (t : Rbt) (tid f : Nat), isBst t = true → isBst (insertReq t tid f) = true)
    ∧ (∀ (st : OsdcIndex) (fs : List Nat), isBst st.requests = true →
        isBst (tree_registerAll st fs).1.requests = true)
    ∧ (∀ t : Rbt, isBst t = true → List.Pairwise (· < ·) (inorderTids t))
    ∧ (∀ (t : Rbt) (q : Nat) (p : Nat × Nat), lookupGe t q = some p → q ≤ p.1) := by
  refine ⟨?_, ?_, ?_, ?_, ?_⟩
  · intro st fs
    rw [tree_registerAll_range]
    exact List.pairwise_lt_range' _ _
  · intro t tid f h
    exact isBst_insert h
  · intro st fs
    induction fs generalizing st with
    | nil => intro h; simpa [tree_registerAll]
    | cons f rest ih =>
      intro h
      simp only [tree_registerAll]
      exact ih _ (by simpa [tree_register_request] using isBst_insert h)
  · intro t h
    exact pairwise_inorder h
  · exact lookupGe_ge

/-- Witness for the tid-ordering theorem on concrete data. -/
theorem tids_strictly_increasing_index_ordered_witness :
    List.Pairwise (· < ·) (tree_registerAll { lastTid := 4, requests := Rbt.nil } [2, 1, 2]).2
    ∧ isBst (insertReq (Rbt.node Rbt.nil 9 1 Rbt.nil) 4 2) = true
    ∧ List.Pairwise (· < ·)
        (inorderTids (Rbt.node (Rbt.node Rbt.nil 3 1 Rbt.nil) 9 1 Rbt.nil))
    ∧ (4 : Nat) ≤ 9 :=
  ⟨tids_strictly_increasing_index_ordered.1 { lastTid := 4, requests := Rbt.nil } [2, 1, 2],
   tids_strictly_increasing_index_ordered.2.1 (Rbt.node Rbt.nil 9 1 Rbt.nil) 4 2 (by decide),
   tids_strictly_increasing_index_ordered.2.2.2.1
     (Rbt.node (Rbt.node Rbt.nil 3 1 Rbt.nil) 9 1 Rbt.nil) (by decide),
   tids_strictly_increasing_index_ordered.2.2.2.2 (Rbt.node Rbt.nil 9 1 Rbt.nil) 4 (9, 1)
     (by decide)⟩

theorem findReq_some_tid {st : ClientState} {tid : Nat} {req : ReqState}
    (h : findReq st tid = some req) : req.tid = tid := by
  have := List.find?_some h
  simpa using this

theorem find?_update_eq : ∀ (l : List ReqState) (tid : Nat) (req req' : ReqState),
    l.find? (fun r => r.tid == tid) = some req → req'.tid = tid →
    (l.map (fun r => if r.tid == req'.tid then req' else r)).find? (fun r => r.tid == tid) =
      some req' := by
  intro l
  induction l with
  | nil => intro tid req req' h _; simp at h
  | cons a as ih =>
    intro tid req req' h h2
    by_cases ha : (a.tid == tid) = true
    · have ha' : (a.tid == req'.tid) = true := by rw [h2]; exact ha
      have hp : ((if a.tid == req'.tid then req' else a).tid == tid) = true := by
        rw [if_pos ha']
        simp [h2]
      rw [List.map_cons, List.find?_cons, hp, if_pos ha']
    · have ha' : (a.tid == req'.tid) = false := by
        rw [h2]
        simpa using ha
      have haf : (a.tid == tid) = false := by simpa using ha
      have h' : as.find? (fun r => r.tid == tid) = some req := by
        rw [List.find?_cons, haf] at h
        exact h
      have hp : ((if a.tid == req'.tid then req' else a).tid == tid) = false := by
        rw [ha']
        exact haf
      rw [List.map_cons, List.find?_cons, hp, ha']
      exact ih tid req req' h' h2

theorem findReq_update {st : ClientState} {tid : Nat} {req req' : ReqState}
    (h : findReq st tid = some req) (h2 : req'.tid = tid) :
    findReq (updateReq st req') tid = some req' :=
  find?_update_eq st.reqs tid req req' h h2

theorem find?_filter_ne (l : List ReqState) (tid : Nat) :
    (l.filter (fun r => !(r.tid == tid))).find? (fun r => r.tid == tid) = none := by
  apply List.find?_eq_none.mpr
  intro r hr
  have := (List.mem_filter.mp hr).2
  simpa using this

theorem updateReq_osds (st : ClientState) (req : ReqState) : (updateReq st req).osds = st.osds :=
  rfl

theorem sessionList_not_mem {osds : List (Int × List Nat)} {o : Int}
    (h : ∀ s ∈ osds, s.1 ≠ o) : sessionList osds o = none := by
  unfold sessionList
  rw [List.find?_eq_none.mpr]
  · rfl
  · intro s hs
    simpa using h s hs

theorem sessionList_remove : ∀ (osds : List (Int × List Nat)) (o : Int) (tid : Nat),
    (osds.map (fun s => s.1)).Nodup →
    sessionList (removeSessionTid osds o tid) o =
      (match sessionList osds o with
       | none => none
       | some l =>
         if (l.filter (fun t => !(t == tid))).isEmpty then none
         else some (l.filter (fun t => !(t == tid)))) := by
  intro osds
  induction osds with
  | nil => intro o tid _; simp [removeSessionTid, sessionList]
  | cons s rest ih =>
    intro o tid hnd
    rw [List.map_cons, List.nodup_cons] at hnd
    by_cases hs : (s.1 == o) = true
    · have hso : s.1 = o := by simpa using hs
      have hrest : ∀ u ∈ rest, u.1 ≠ o := by
        intro u hu he
        apply hnd.1
        have huo : u.1 = s.1 := by rw [he, hso]
        rw [← huo]
        exact List.mem_map_of_mem _ hu
      have hhead : sessionList (s :: rest) o = some s.2 := by
        unfold sessionList
        rw [List.find?_cons, hs]
        rfl
      unfold removeSessionTid
      rw [if_pos hs, hhead]
      by_cases hemp : (s.2.filter (fun t => !(t == tid))).isEmpty = true
      · rw [if_pos hemp, sessionList_not_mem hrest]
        simp [hemp]
      · rw [if_neg hemp]
        have hcons : sessionList ((s.1, s.2.filter (fun t => !(t == tid))) :: rest) o =
            some (s.2.filter (fun t => !(t == tid))) := by
          unfold sessionList
          rw [List.find?_cons]
          simp only [hs]
          rfl
        rw [hcons]
        simp [hemp]
    · have hsf : (s.1 == o) = false := by simpa using hs
      have h1 : sessionList (s :: removeSessionTid rest o tid) o =
          sessionList (removeSessionTid rest o tid) o := by
        unfold sessionList
        rw [List.find?_cons, hsf]
      have h2 : sessionList (s :: rest) o = sessionList rest o := by
        unfold sessionList
        rw [List.find?_cons, hsf]
      unfold removeSessionTid
      rw [if_neg hs, h1, h2]
      exact ih o tid hnd.2

theorem replyReqUpdate_tid (req : ReqState) (m : ReplyMsg) :
    (replyReqUpdate req m).tid = req.tid := by
  unfold replyReqUpdate
  split <;> rfl

theorem replyReqUpdate_osd (req : ReqState) (m : ReplyMsg) :
    (replyReqUpdate req m).osd = req.osd := by
  unfold replyReqUpdate
  split <;> rfl

theorem replyReqUpdate_hasCallback (req : ReqState) (m : ReplyMsg) :
    (replyReqUpdate req m).hasCallback = req.hasCallback := by
  unfold replyReqUpdate
  split <;> rfl

theorem replyReqUpdate_hasSafeCallback (req : ReqState) (m : ReplyMsg) :
    (replyReqUpdate req m).hasSafeCallback = req.hasSafeCallback := by
  unfold replyReqUpdate
  split <;> rfl

/-- C4: a reply whose tid matches a registered request that already has
`got_reply` set and whose flags lack ONDISK is a no-op beyond reference
bookkeeping — the handler returns the state unchanged (result kept,
request still registered) and fires no callback or completion event;
the first reply for a registered, non-aborted write (no ONDISK) sets
`got_reply`, records the result (the byte count when the daemon
reported 0), signals exactly once (callback if registered, else the
completion), and leaves the request registered.  (For a read the first
reply additionally unregisters; that path is the subject of the
unregistration claim.) -/
theorem handle_reply_dup_ack_noop_first_signals (st : ClientState) (m : ReplyMsg)
    (req : ReqState) (hreg : findReq st m.tid = some req) :
    (req.gotReply = true → hasFlag m.flags CEPH_OSD_FLAG_ONDISK = false →
      ceph_osdc_handle_reply st m = some (st, []))
    ∧ (req.aborted = false → req.gotReply = false →
       hasFlag m.flags CEPH_OSD_FLAG_ONDISK = false →
       hasFlag m.flags CEPH_OSD_FLAG_WRITE = true →
       ceph_osdc_handle_reply st m =
         some (updateReq st (replyReqUpdate req m),
           [if req.hasCallback then REv.callback m.tid else REv.completed m.tid])
       ∧ (replyReqUpdate req m).gotReply = true
       ∧ (replyReqUpdate req m).result = (if m.result = 0 then m.dataLen else m.result)
       ∧ findReq (updateReq st (replyReqUpdate req m)) m.tid = some (replyReqUpdate req m)) := by
  constructor
  · intro hgot hond
    simp only [ceph_osdc_handle_reply, hreg]
    cases hab : req.aborted
    · simp [hgot, hond]
    · simp
  · intro hab hgot hond hwr
    refine ⟨?_, ?_, ?_, ?_⟩
    · simp only [ceph_osdc_handle_reply, hreg, hab, hgot, hond, hwr]
      simp only [replyReqUpdate_hasCallback]
      simp
      split <;> rfl
    · unfold replyReqUpdate
      simp [hgot]
    · unfold replyReqUpdate
      simp [hgot]
    · exact findReq_update hreg ((replyReqUpdate_tid req m).trans (findReq_some_tid hreg))

/-- A registered write request that already got its first ack. -/
def c4_req_dup : ReqState := { tid := 1, flags := 6, osd := some 7, gotReply := true }

/-- Client state holding `c4_req_dup` routed to session 7. -/
def c4_st_dup : ClientState :=
  { lastTid := 1, reqs := [c4_req_dup], osds := [(7, [1])], numRequests := 1 }

/-- A write ack reply (WRITE set, no ONDISK) for tid 1. -/
def c4_msg : ReplyMsg := { tid := 1, flags := 2, result := 0, dataLen := 4096 }

/-- The same request before its first reply. -/
def c4_req_first : ReqState := { tid := 1, flags := 6, osd := some 7 }

/-- Client state holding `c4_req_first` routed to session 7. -/
def c4_st_first : ClientState :=
  { lastTid := 1, reqs := [c4_req_first], osds := [(7, [1])], numRequests := 1 }

/-- Witness: a duplicate ack is a strict no-op, and the first ack
records and signals. -/
theorem handle_reply_dup_ack_noop_first_signals_witness :
    ceph_osdc_handle_reply c4_st_dup c4_msg = some (c4_st_dup, [])
    ∧ ceph_osdc_handle_reply c4_st_first c4_msg =
        some (updateReq c4_st_first (replyReqUpdate c4_req_first c4_msg),
          [if c4_req_first.hasCallback then REv.callback c4_msg.tid
           else REv.completed c4_msg.tid]) :=
  ⟨(handle_reply_dup_ack_noop_first_signals c4_st_dup c4_msg c4_req_dup (by decide)).1
      (by decide) (by decide),
   ((handle_reply_dup_ack_noop_first_signals c4_st_first c4_msg c4_req_first (by decide)).2
      (by decide) (by decide) (by decide) (by decide)).1⟩

theorem handle_reply_reduce (st : ClientState) (m : ReplyMsg) (req : ReqState)
    (hreg : findReq st m.tid = some req) (hab : req.aborted = false)
    (hnotdup : (req.gotReply && !(hasFlag m.flags CEPH_OSD_FLAG_ONDISK)) = false) :
    ceph_osdc_handle_reply st m =
      (match (if hasFlag m.flags CEPH_OSD_FLAG_ONDISK || !(hasFlag m.flags CEPH_OSD_FLAG_WRITE)
              then unregister_request (updateReq st (replyReqUpdate req m)) m.tid
              else some (updateReq st (replyReqUpdate req m))) with
       | none => none
       | some st2 =>
         some (st2,
           (if (replyReqUpdate req m).hasCallback then [REv.callback m.tid]
            else [REv.completed m.tid]) ++
           (if hasFlag m.flags CEPH_OSD_FLAG_ONDISK then
             (if (replyReqUpdate req m).hasSafeCallback then [REv.safeCallback m.tid] else []) ++
               [REv.safeCompleted m.tid]
            else []))) := by
  simp only [ceph_osdc_handle_reply, hreg, hab, hnotdup, Bool.false_eq_true, if_false]

/-- C5: for a registered, non-aborted, routed request whose reply
mirrors the request's WRITE bit (and which is not a duplicate ack, the
no-op case), the reply handler unregisters the request exactly when the
reply carries ONDISK or the request is a read (WRITE not set); a
write's first non-ONDISK ack leaves it registered (as the updated
record); and on unregistration the tid is removed from its daemon
session's request list, the session surviving exactly when other
requests remain on it. -/
theorem handle_reply_unregisters_iff_ondisk_or_read (st : ClientState) (m : ReplyMsg)
    (req : ReqState) (o : Int)
    (hreg : findReq st m.tid = some req)
    (hab : req.aborted = false)
    (hosd : req.osd = some o)
    (hagree : hasFlag m.flags CEPH_OSD_FLAG_WRITE = hasFlag req.flags CEPH_OSD_FLAG_WRITE)
    (hnd : (st.osds.map (fun s => s.1)).Nodup)
    (hnotdup : (req.gotReply && !(hasFlag m.flags CEPH_OSD_FLAG_ONDISK)) = false) :
    (ceph_osdc_handle_reply st m).isSome = true
    ∧ (findReq (replyOutState st m) m.tid = none ↔
        (hasFlag m.flags CEPH_OSD_FLAG_ONDISK || !(hasFlag req.flags CEPH_OSD_FLAG_WRITE)) =
          true)
    ∧ (hasFlag req.flags CEPH_OSD_FLAG_WRITE = true →
       hasFlag m.flags CEPH_OSD_FLAG_ONDISK = false →
       findReq (replyOutState st m) m.tid = some (replyReqUpdate req m))
    ∧ ((hasFlag m.flags CEPH_OSD_FLAG_ONDISK || !(hasFlag req.flags CEPH_OSD_FLAG_WRITE)) =
          true →
       sessionList (replyOutState st m).osds o =
         (match sessionList st.osds o with
          | none => none
          | some l =>
            if (l.filter (fun t => !(t == m.tid))).isEmpty then none
            else some (l.filter (fun t => !(t == m.tid))))) := by
  have htid : req.tid = m.tid := findReq_some_tid hreg
  have hreg1 : findReq (updateReq st (replyReqUpdate req m)) m.tid =
      some (replyReqUpdate req m) :=
    findReq_update hreg ((replyReqUpdate_tid req m).trans htid)
  have hred := handle_reply_reduce st m req hreg hab hnotdup
  cases hcond : (hasFlag m.flags CEPH_OSD_FLAG_ONDISK ||
      !(hasFlag m.flags CEPH_OSD_FLAG_WRITE)) with
  | true =>
    have hcond' : (hasFlag m.flags CEPH_OSD_FLAG_ONDISK ||
        !(hasFlag req.flags CEPH_OSD_FLAG_WRITE)) = true := by
      rw [← hagree]
      exact hcond
    have hunreg : unregister_request (updateReq st (replyReqUpdate req m)) m.tid =
        some { updateReq st (replyReqUpdate req m) with
          reqs := (updateReq st (replyReqUpdate req m)).reqs.filter
            (fun r => !(r.tid == m.tid)),
          numRequests := (updateReq st (replyReqUpdate req m)).numRequests - 1,
          osds := removeSessionTid (updateReq st (replyReqUpdate req m)).osds o m.tid } := by
      unfold unregister_request
      rw [hreg1]
      simp only [replyReqUpdate_osd, hosd]
    rw [hcond] at hred
    simp only [eq_self_iff_true, if_true] at hred
    rw [hunreg] at hred
    have hout : replyOutState st m =
        { updateReq st (replyReqUpdate req m) with
          reqs := (updateReq st (replyReqUpdate req m)).reqs.filter
            (fun r => !(r.tid == m.tid)),
          numRequests := (updateReq st (replyReqUpdate req m)).numRequests - 1,
          osds := removeSessionTid (updateReq st (replyReqUpdate req m)).osds o m.tid } := by
      unfold replyOutState
      rw [hred]
      rfl
    refine ⟨by rw [hred]; rfl, ?_, ?_, ?_⟩
    · rw [hout]
      constructor
      · intro _
        exact hcond'
      · intro _
        exact find?_filter_ne _ m.tid
    · intro hw ho
      exfalso
      rw [hw, ho] at hcond'
      simp at hcond'
    · intro _
      rw [hout]
      have : removeSessionTid (updateReq st (replyReqUpdate req m)).osds o m.tid =
          removeSessionTid st.osds o m.tid := rfl
      rw [this]
      exact sessionList_remove st.osds o m.tid hnd
  | false =>
    have hcond' : (hasFlag m.flags CEPH_OSD_FLAG_ONDISK ||
        !(hasFlag req.flags CEPH_OSD_FLAG_WRITE)) = false := by
      rw [← hagree]
      exact hcond
    rw [hcond] at hred
    simp only [Bool.false_eq_true, if_false] at hred
    have hout : replyOutState st m = updateReq st (replyReqUpdate req m) := by
      unfold replyOutState
      rw [hred]
      rfl
    refine ⟨by rw [hred]; rfl, ?_, ?_, ?_⟩
    · rw [hout, hreg1]
      constructor
      · intro h
        cases h
      · intro h
        rw [h] at hcond'
        cases hcond'
    · intro _ _
      rw [hout]
      exact hreg1
    · intro h
      rw [h] at hcond'
      cases hcond'

/-- A routed write request that already received its ack. -/
def c5_req : ReqState := { tid := 1, flags := 6, osd := some 7, gotReply := true }

/-- Client state holding `c5_req` as the only request of session 7. -/
def c5_st : ClientState :=
  { lastTid := 1, reqs := [c5_req], osds := [(7, [1])], numRequests := 1 }

/-- A commit reply (ONDISK and WRITE set) for tid 1. -/
def c5_msg : ReplyMsg := { tid := 1, flags := 6, result := 0, dataLen := 4096 }

/-- Witness: an ONDISK commit for a write unregisters the request and
destroys its now-empty daemon session. -/
theorem handle_reply_unregisters_iff_ondisk_or_read_witness :
    (ceph_osdc_handle_reply c5_st c5_msg).isSome = true
    ∧ findReq (replyOutState c5_st c5_msg) 1 = none
    ∧ sessionList (replyOutState c5_st c5_msg).osds 7 = none := by
  have h := handle_reply_unregisters_iff_ondisk_or_read c5_st c5_msg c5_req 7
    (by decide) (by decide) (by decide) (by decide) (by decide) (by decide)
  refine ⟨h.1, h.2.1.mpr (by decide), ?_⟩
  have h4 := h.2.2.2 (by decide)
  rw [h4]
  decide

theorem map_osds_no_consend (st : ClientState) (tid : Nat) (o : Int) (allocOk : Bool) :
    ((map_osds st tid o allocOk).2.2.filter isConSend) = [] := by
  rcases hfr : findReq st tid with _ | req
  · simp [map_osds, hfr]
  · simp only [map_osds, hfr]
    split <;> (try split) <;> (try split) <;> (try split) <;> rfl

theorem kick_send_aborted (st : ClientState) (tid : Nat) (o : Int) (allocOk : Bool)
    (req : ReqState) (hreg : findReq st tid = some req) (hab : req.aborted = true) :
    kick_send st tid o allocOk = (st, [], false) := by
  simp only [kick_send, hreg, hab, eq_self_iff_true, if_true]

theorem map_osds_found (st : ClientState) (tid : Nat) (o : Int) (allocOk : Bool)
    (req : ReqState) (hreg : findReq st tid = some req) :
    ∃ s, findReq (map_osds st tid o allocOk).1 tid = some { req with osd := s } := by
  have htid : req.tid = tid := findReq_some_tid hreg
  have hA : findReq (updateReq st { req with osd := none }) tid =
      some { req with osd := none } :=
    findReq_update hreg htid
  simp only [map_osds, hreg]
  cases hcase : (req.osd == some o) with
  | true =>
    simp only [eq_self_iff_true, if_true]
    exact ⟨req.osd, hreg⟩
  | false =>
    simp only [Bool.false_eq_true, if_false]
    split
    · exact ⟨some o, findReq_update hA htid⟩
    · split
      · exact ⟨some o, findReq_update hA htid⟩
      · exact ⟨none, hA⟩

/-- C8: once a request's `aborted` flag is set, a later reply for its
tid produces no callback and no completion event and leaves the
client state — the request's result and its registration — unchanged
(the handler exits at `done` after the reference bookkeeping); and the
resubmission machinery (the kick protocol, whose `#if 0` body guards
every send with `if (!req->r_aborted)`) never hands the request's
message to the transport: no `conSend` event is emitted for it under
any oracle inputs. -/
theorem aborted_request_no_side_effects_no_send :
    (∀ (st : ClientState) (m : ReplyMsg) (req : ReqState),
      findReq st m.tid = some req → req.aborted = true →
      ceph_osdc_handle_reply st m = some (st, []))
    ∧ (∀ (st : ClientState) (tid : Nat) (req : ReqState) (addrMatch : Bool)
        (lastOsd o : Int) (allocOk : Bool),
      findReq st tid = some req → req.aborted = true →
      ((kick_one st tid addrMatch lastOsd o allocOk).2.1.filter isConSend) = []) := by
  constructor
  · intro st m req hreg hab
    simp only [ceph_osdc_handle_reply, hreg, hab, eq_self_iff_true, if_true]
  · intro st tid req addrMatch lastOsd o allocOk hreg hab
    simp only [kick_one, hreg]
    cases hra : (req.resend || addrMatch) with
    | true =>
      simp only [eq_self_iff_true, if_true]
      rw [kick_send_aborted st tid o allocOk req hreg hab]
      rfl
    | false =>
      simp only [Bool.false_eq_true, if_false]
      by_cases h0 : (map_osds st tid o allocOk).2.1 = 0
      · rw [if_pos h0]
        exact map_osds_no_consend st tid o allocOk
      · rw [if_neg h0]
        by_cases hl : lastOsd < 0
        · rw [if_pos hl]
          exact map_osds_no_consend st tid o allocOk
        · rw [if_neg hl]
          obtain ⟨s, hs⟩ := map_osds_found st tid o allocOk req hreg
          have hab' : ({ req with osd := s } : ReqState).aborted = true := hab
          rw [kick_send_aborted (map_osds st tid o allocOk).1 tid o allocOk _ hs hab']
          simp [map_osds_no_consend st tid o allocOk]

/-- An aborted, routed write request. -/
def c8_req : ReqState := { tid := 1, flags := 6, osd := some 7, aborted := true }

/-- Client state holding the aborted request `c8_req`. -/
def c8_st : ClientState :=
  { lastTid := 1, reqs := [c8_req], osds := [(7, [1])], numRequests := 1 }

/-- A commit reply for the aborted request's tid. -/
def c8_msg : ReplyMsg := { tid := 1, flags := 6, result := 0, dataLen := 0 }

/-- Witness: a reply after abort is a no-op, and a kick pass over the
aborted request emits no transport send. -/
theorem aborted_request_no_side_effects_no_send_witness :
    ceph_osdc_handle_reply c8_st c8_msg = some (c8_st, [])
    ∧ ((kick_one c8_st 1 true 7 7 true).2.1.filter isConSend) = [] :=
  ⟨aborted_request_no_side_effects_no_send.1 c8_st c8_msg c8_req (by decide) (by decide),
   aborted_request_no_side_effects_no_send.2 c8_st 1 c8_req true 7 7 true (by decide)
     (by decide)⟩
